import Mathlib

set_option linter.unusedVariables false
set_option maxRecDepth 40000

/-!
Shallow embedding of the blackjack application (React/TypeScript sources:
`src/utils/gameLogic.ts`, `src/utils/splitLogic.ts` and the
`BlackjackTable` component).

Modelling conventions:
* Card ranks are the thirteen strings of the source `ranks` array, modelled
  as an inductive type; suits stay strings.
* JS numbers holding chip amounts and bets are modelled as rationals
  (the blackjack payout multiplies a bet by 2.5); totals and counters are
  naturals; the running count is an integer.
* React `useState` updates performed synchronously inside one handler are
  modelled by sequentially threading an explicit `GameState` record through
  the handler, which is the order the handlers assign them.
* `Math.random()` consumed by the randomized bot is an explicit `rand`
  parameter; the random shuffle is modelled by quantifying over
  permutations of the unshuffled deck sequence.
* A ghost `events` field records the order in which the Bot 3 action and
  the dealer resolution happen inside one hand resolution, so temporal
  claims about that order can be stated; no other definition reads it.
-/

namespace Blackjack

/-- Rank values of the source `ranks` array: "2" .. "10", "J", "Q", "K", "A". -/
inductive Rank
  | r2 | r3 | r4 | r5 | r6 | r7 | r8 | r9 | r10 | J | Q | K | A
deriving DecidableEq

/-- String form of a rank, exactly the strings stored in the source arrays. -/
def rankStr : Rank → String
  | .r2 => "2"
  | .r3 => "3"
  | .r4 => "4"
  | .r5 => "5"
  | .r6 => "6"
  | .r7 => "7"
  | .r8 => "8"
  | .r9 => "9"
  | .r10 => "10"
  | .J => "J"
  | .Q => "Q"
  | .K => "K"
  | .A => "A"

/-- A card: `{suit, rank}` (CardType in the source). -/
structure Card where
  suit : String
  rank : Rank
deriving DecidableEq

/-- The `suits` array of gameLogic.ts. -/
def suits : List String := ["♠️", "♥️", "♦️", "♣️"]

/-- The `ranks` array of gameLogic.ts. -/
def ranks : List Rank :=
  [.r2, .r3, .r4, .r5, .r6, .r7, .r8, .r9, .r10, .J, .Q, .K, .A]

/-- Body of `generateDeck(numDecks = 6)` before the shuffle: `numDecks`
copies of the 52-card deck, pushed per deck copy, per suit, per rank.
The source then shuffles with `deck.sort(() => Math.random() - 0.5)`, whose
result is some permutation of this sequence; the shuffle is therefore
modelled by quantifying over permutations of `generateDeckBase numDecks`. -/
def generateDeckBase (numDecks : Nat := 6) : List Card :=
  (List.range numDecks).flatMap fun _ =>
    suits.flatMap fun suit => ranks.map fun rank => ⟨suit, rank⟩

/-- The `hiLoValues` table of gameLogic.ts: ranks 2-6 count +1,
7-9 count 0, 10/J/Q/K/A count -1. -/
def hiLoValues (r : Rank) : Int :=
  match r with
  | .r2 | .r3 | .r4 | .r5 | .r6 => 1
  | .r7 | .r8 | .r9 => 0
  | .r10 | .J | .Q | .K | .A => -1

/-- gameLogic.ts `updateRunningCount(deck, runningCount)`: accumulate the
Hi-Lo value of every card into `countChange` and add it to the count. -/
def updateRunningCount (deck : List Card) (runningCount : Int) : Int :=
  runningCount + deck.foldl (fun countChange card => countChange + hiLoValues card.rank) 0

/-- gameLogic.ts `calculateTrueCount`: `Math.round(runningCount / decksRemaining)`
when `decksRemaining > 0`, else the running count unchanged.  For `d > 0`,
`Math.round(x / d)` (round half toward positive infinity) equals
`⌊(2x + d) / (2d)⌋` on exact rationals, written with `Int.fdiv`. -/
def calculateTrueCount (runningCount decksRemaining : Int) : Int :=
  if 0 < decksRemaining then Int.fdiv (2 * runningCount + decksRemaining) (2 * decksRemaining)
  else runningCount

/-- gameLogic.ts `getDecksRemaining`: `Math.floor(deck.length / 52)`. -/
def getDecksRemaining (deck : List Card) : Nat :=
  deck.length / 52

/-- The static `basicStrategy` table of gameLogic.ts, in source order. -/
def basicStrategy : List (String × String) :=
  [ ("5_any", "hit"),
    ("6_any", "hit"),
    ("7_any", "hit"),
    ("8_any", "hit"),
    ("9_2", "hit"),
    ("9_3", "double_or_hit"),
    ("9_4", "double_or_hit"),
    ("9_5", "double"),
    ("9_6", "double"),
    ("9_7", "hit"),
    ("10_any", "double_or_hit"),
    ("11_any", "double"),
    ("12_2", "hit"),
    ("12_3", "hit"),
    ("12_4", "stand"),
    ("12_5", "stand"),
    ("12_6", "stand"),
    ("12_7", "hit"),
    ("13_2", "stand"),
    ("13_3", "stand"),
    ("13_4", "stand"),
    ("13_5", "stand"),
    ("13_6", "stand"),
    ("15_10", "surrender_or_hit"),
    ("16_10", "surrender_or_hit"),
    ("17_any", "stand"),
    ("18_any", "stand"),
    ("19_any", "stand"),
    ("20_any", "stand"),
    ("21_any", "stand") ]

/-- gameLogic.ts `getOptimalMove`: look up `"{total}_{upcard}"`, fall back to
`"{total}_any"`, default `"hit"`; then apply the two sequential true-count
adjustments. -/
def getOptimalMove (playerTotal : Int) (dealerUpcard : String)
    (runningCount decksRemaining : Int) : String :=
  let move :=
    match basicStrategy.lookup (toString playerTotal ++ "_" ++ dealerUpcard) with
    | some m => m
    | none =>
      match basicStrategy.lookup (toString playerTotal ++ "_any") with
      | some m => m
      | none => "hit"
  let trueCount := calculateTrueCount runningCount decksRemaining
  let move1 := if 2 ≤ trueCount ∧ move = "hit" then "stand" else move
  if trueCount ≤ -2 ∧ move1 = "stand" then "hit" else move1

/-- The `bustMap` table inside gameLogic.ts `getBustProbability`. -/
def bustMap : List (Int × Int) :=
  [ (12, 31), (13, 39), (14, 56), (15, 58), (16, 62),
    (17, 69), (18, 77), (19, 85), (20, 92), (21, 100) ]

/-- gameLogic.ts `getBustProbability`. -/
def getBustProbability (total : Int) : Int :=
  if 21 ≤ total then 100
  else if total ≤ 11 then 0
  else (bustMap.lookup total).getD 0

/-- gameLogic.ts `analyzeMove`: the advisory analysis string.  The component
calls it without the last two arguments; in JS both then stay `undefined`
and neither true-count adjustment fires, which the call sites below model by
passing `0` for both (same result). -/
def analyzeMove (playerTotal : Int) (dealerUpcard : String) (playerAction : String)
    (runningCount decksRemaining : Int) : String :=
  let optimalMove := getOptimalMove playerTotal dealerUpcard runningCount decksRemaining
  let bustProbability := getBustProbability playerTotal
  let analysis :=
    "\n=== Hand Analysis ===\nYour Hand Total: " ++ toString playerTotal ++
    "\nDealer\x27s Upcard: " ++ dealerUpcard ++
    "\nProbability of Busting if you hit: " ++ toString bustProbability ++
    "%\n\nRecommended Action: "
  let analysis := analysis ++
    (if optimalMove = "hit" then
      "Hit\n  • Your hand total is low enough that hitting gives you a chance to improve without a high risk of busting."
    else if optimalMove = "stand" then
      "Stand\n  • Your hand is strong, and taking another card might result in a bust."
    else if optimalMove = "double_or_hit" then
      "Double Down if available; otherwise, Hit\n  • You have a favorable chance to improve significantly."
    else if optimalMove = "surrender_or_hit" then
      "Surrender if allowed; otherwise, Hit\n  • Your hand is statistically weak compared to the dealer."
    else "Hit (default)")
  let analysis :=
    if playerAction = optimalMove ∨ (playerAction = "double" ∧ optimalMove = "double_or_hit") then
      "✅ Correct Choice!\n" ++ analysis
    else
      "❌ Incorrect Choice: You chose " ++ playerAction ++ " instead of " ++ optimalMove ++ ".\n" ++ analysis
  analysis ++
    "\n  \nAdditional Explanation:\n- A hand total of " ++ toString playerTotal ++
    " has about a " ++ toString bustProbability ++
    "% chance of busting if you take a hit.\n- This statistic is crucial for understanding the risk of drawing another card.\n- The lower this probability, the safer it is to hit; a high probability suggests you should stand to avoid busting.\n"

/-- splitLogic.ts `getCardValue`: ace 11, face cards 10, otherwise the
numeric rank (`parseInt` of the rank string). -/
def getCardValue (card : Card) : Nat :=
  match card.rank with
  | .A => 11
  | .K | .Q | .J => 10
  | .r10 => 10
  | .r9 => 9
  | .r8 => 8
  | .r7 => 7
  | .r6 => 6
  | .r5 => 5
  | .r4 => 4
  | .r3 => 3
  | .r2 => 2

/-- splitLogic.ts `canSplit`: exactly two cards of equal numeric value. -/
def canSplit (hand : List Card) : Bool :=
  match hand with
  | [a, b] => getCardValue a == getCardValue b
  | _ => false

/-- splitLogic.ts `createSplitHands`: `[[hand[0]], [hand[1]]]` with the bet. -/
def createSplitHands (hand : List Card) (bet : ℚ) : (List Card × List Card) × ℚ :=
  ((hand.take 1, (hand.drop 1).take 1), bet)

/-- Per-card value used by the component `calculateTotal`: "A" adds 11,
"K"/"Q"/"J" add 10, otherwise `parseInt(rank)`. -/
def rankValue (r : Rank) : Nat :=
  match r with
  | .A => 11
  | .K | .Q | .J => 10
  | .r10 => 10
  | .r9 => 9
  | .r8 => 8
  | .r7 => 7
  | .r6 => 6
  | .r5 => 5
  | .r4 => 4
  | .r3 => 3
  | .r2 => 2

/-- The `total` accumulated by the forEach of `calculateTotal`
(each ace counted as 11). -/
def handBase : List Card → Nat
  | [] => 0
  | card :: rest => rankValue card.rank + handBase rest

/-- The `aces` counter accumulated by the forEach of `calculateTotal`. -/
def aceCount : List Card → Nat
  | [] => 0
  | card :: rest => (if card.rank = Rank.A then 1 else 0) + aceCount rest

/-- The while loop of `calculateTotal`:
`while (total > 21 && aces > 0) { total -= 10; aces -= 1; }`, written as
structural recursion on the ace counter. -/
def reduceAces : Nat → Nat → Nat
  | total, 0 => total
  | total, aces + 1 => if 21 < total then reduceAces (total - 10) aces else total

/-- BlackjackTable `calculateTotal`. -/
def calculateTotal (hand : List Card) : Nat :=
  reduceAces (handBase hand) (aceCount hand)

/-- BlackjackTable `computeOutcome`. -/
def computeOutcome (playerTotal dealerTotal : Int) : String :=
  if 21 < playerTotal then "Bust"
  else if 21 < dealerTotal then "Win"
  else if playerTotal < dealerTotal then "Lose"
  else if dealerTotal < playerTotal then "Win"
  else "Push"

/-- Per-card weight of the component `updateRunningCountForCards`
(aliased `updateRunningCount` inside BlackjackTable). -/
def cardCountValue (card : Card) : Int :=
  match card.rank with
  | .r2 | .r3 | .r4 | .r5 | .r6 => 1
  | .r10 | .J | .Q | .K | .A => -1
  | _ => 0

/-- BlackjackTable `updateRunningCountForCards`. -/
def updateRunningCountForCards (cards : List Card) (runningCount : Int) : Int :=
  runningCount + cards.foldl (fun countChange card => countChange + cardCountValue card) 0

/-- BlackjackTable `bot1Play`. -/
def bot1Play (hand : List Card) (dealerUpcard : String) (runningCount : Int) : String :=
  let total := calculateTotal hand
  if hand.length = 2 ∧ (total = 10 ∨ total = 11) then "double"
  else if 2 ≤ runningCount then (if total < 18 then "hit" else "stand")
  else if runningCount ≤ -2 then (if total < 15 then "hit" else "stand")
  else if total < 17 then "hit" else "stand"

/-- BlackjackTable `bot2Play` (the composition counters are computed but
unused in the source; they are kept here as unused bindings). -/
def bot2Play (hand : List Card) (dealerUpcard : String) (deck : List Card)
    (runningCount : Int) : String :=
  let total := calculateTotal hand
  if hand.length = 2 ∧ (total = 10 ∨ total = 11) then "double"
  else
    let lowCards := (deck.filter fun c => [Rank.r2, .r3, .r4, .r5, .r6].contains c.rank).length
    let highCards := (deck.filter fun c => [Rank.r10, .J, .Q, .K, .A].contains c.rank).length
    if 0 < runningCount then (if total < 16 then "hit" else "stand")
    else if runningCount < 0 then (if total < 14 then "hit" else "stand")
    else if total < 16 then "hit" else "stand"

/-- BlackjackTable `bot3Play`; `Math.random()` is the explicit `rand`
argument. -/
def bot3Play (hand : List Card) (dealerUpcard : String) (runningCount : Int)
    (rand : ℚ) : String :=
  let total := calculateTotal hand
  if hand.length = 2 ∧ (total = 10 ∨ total = 11) then "double"
  else
    let baseProbability : ℚ := if 0 < runningCount then 0.4 else 0.6
    if rand < baseProbability then (if total < 17 then "hit" else "stand")
    else (if total < 15 then "hit" else "stand")

/-- SplitHand record of the component. -/
structure SplitHand where
  hand : List Card
  bet : ℚ
  completed : Bool
deriving DecidableEq

/-- ChatEntry record of the component. -/
structure ChatEntry where
  order : Nat
  sender : String
  message : String
deriving DecidableEq

/-- HandHistory record of the component (only ever reset to `[]`). -/
structure HandHistory where
  playerName : String
  playerTotal : Nat
  dealerTotal : Nat
  outcome : String
deriving DecidableEq

/-- A bot player's mutable data (hand, chips, bet). -/
structure PlayerRec where
  hand : List Card
  chips : ℚ
  bet : ℚ
deriving DecidableEq

/-- Ghost resolution events: the Bot 3 action and the dealer reveal inside
one resolution, recorded in call order. -/
inductive Ev
  | bot3Action
  | dealerResolution
deriving DecidableEq

/-- The component state of BlackjackTable (the useState hooks), with the
human player's fields inlined and the ghost `events` field appended. -/
structure GameState where
  deck : List Card
  dealerHand : List Card
  dealerRevealed : Bool
  bot1 : PlayerRec
  bot2 : PlayerRec
  bot3 : PlayerRec
  humanHand : List Card
  humanChips : ℚ
  humanBet : ℚ
  splitHands : Option (SplitHand × SplitHand)
  activeSplitIndex : Nat
  runningCount : Int
  handCount : Nat
  humanWins : Nat
  humanLosses : Nat
  humanPushes : Nat
  message : String
  analysisMessage : String
  sessionAnalysis : String
  handHistory : List HandHistory
  chatLog : List ChatEntry
  bettingPhase : Bool
  gameOver : Bool
  events : List Ev
deriving DecidableEq

/-- `dealerHand[0]?.rank || ""`: the dealer upcard string passed around. -/
def dealerUpcardOf (s : GameState) : String :=
  match s.dealerHand with
  | [] => ""
  | c :: _ => rankStr c.rank

/-- Result of the dealer draw loop. -/
structure DealerRes where
  hand : List Card
  deck : List Card
  runningCount : Int
deriving DecidableEq

/-- The dealer draw loop of `revealDealerHand`:
`while (dealerTotal < 17 && newDeck.length > 0)` shift a card, count it,
recompute the total. -/
def dealerLoop : List Card → List Card → Int → DealerRes
  | hand, [], rc => ⟨hand, [], rc⟩
  | hand, c :: rest, rc =>
    if calculateTotal hand < 17 then
      dealerLoop (hand ++ [c]) rest (rc + cardCountValue c)
    else ⟨hand, c :: rest, rc⟩

/-- BlackjackTable `revealDealerHand`: dealer draws to 17, outcome message is
computed from the human's main hand total, chips are paid out (2.5x the bet
when the player's total is exactly 21, 2x on other wins, bet refunded on a
push), the per-session counters update, and the hand ends. -/
def revealDealerHand (s : GameState) : GameState :=
  let res := dealerLoop s.dealerHand s.deck s.runningCount
  let dealerTotal := calculateTotal res.hand
  let playerTotal := calculateTotal s.humanHand
  let outcome :=
    if 21 < playerTotal then "Bust"
    else if 21 < dealerTotal then "Dealer busts, you win!"
    else if playerTotal < dealerTotal then "Dealer wins!"
    else if dealerTotal < playerTotal then "You win!"
    else "Push!"
  let newChips :=
    if outcome = "You win!" ∨ outcome = "Dealer busts, you win!" then
      if playerTotal = 21 then s.humanChips + s.humanBet * 2.5
      else s.humanChips + s.humanBet * 2
    else if outcome = "Push!" then s.humanChips + s.humanBet
    else s.humanChips
  let newWins :=
    if outcome = "You win!" ∨ outcome = "Dealer busts, you win!" then s.humanWins + 1
    else s.humanWins
  let newPushes :=
    if outcome = "You win!" ∨ outcome = "Dealer busts, you win!" then s.humanPushes
    else if outcome = "Push!" then s.humanPushes + 1
    else s.humanPushes
  let newLosses :=
    if outcome = "You win!" ∨ outcome = "Dealer busts, you win!" then s.humanLosses
    else if outcome = "Push!" then s.humanLosses
    else s.humanLosses + 1
  { s with
    dealerRevealed := true,
    dealerHand := res.hand,
    deck := res.deck,
    runningCount := res.runningCount,
    message := outcome,
    humanChips := newChips,
    humanWins := newWins,
    humanLosses := newLosses,
    humanPushes := newPushes,
    gameOver := true,
    handHistory := [],
    handCount := s.handCount + 1,
    events := s.events ++ [Ev.dealerResolution] }

/-- Result of one bot action block. -/
structure BotActResult where
  player : PlayerRec
  deck : List Card
  runningCount : Int
  action : String
  msg : String
deriving DecidableEq

/-- The per-bot action block that appears three times in the component
(Bot 1 and Bot 2 in `handleBotsTurn`, Bot 3 in `handleBotsTurnAfterHuman`):
a "double" with sufficient chips deducts the bet, doubles it and draws one
card; with insufficient chips the action is downgraded to "stand" with the
distinct log message; a "hit" draws one card; otherwise the bot stands. -/
def botResolveAction (name : String) (p : PlayerRec) (action : String)
    (deck : List Card) (rc : Int) : BotActResult :=
  if action = "double" then
    if p.bet ≤ p.chips then
      let p1 : PlayerRec := ⟨p.hand, p.chips - p.bet, p.bet * 2⟩
      match deck with
      | [] => ⟨p1, [], rc, "double", name ++ " doubled down."⟩
      | c :: rest =>
        ⟨⟨p1.hand ++ [c], p1.chips, p1.bet⟩, rest, rc + cardCountValue c, "double",
          name ++ " doubled down."⟩
    else ⟨p, deck, rc, "stand", name ++ " stood (insufficient chips to double down)."⟩
  else if action = "hit" then
    match deck with
    | [] => ⟨p, [], rc, "hit", ""⟩
    | c :: rest =>
      ⟨⟨p.hand ++ [c], p.chips, p.bet⟩, rest, rc + cardCountValue c, "hit", name ++ " hit."⟩
  else ⟨p, deck, rc, action, name ++ " stood."⟩

/-- BlackjackTable `handleBotsTurnAfterHuman`: Bot 3 chooses and executes an
action, its chat entry (order 7) is appended, and the dealer is resolved. -/
def handleBotsTurnAfterHuman (s : GameState) (rand : ℚ) : GameState :=
  let action := bot3Play s.bot3.hand (dealerUpcardOf s) s.runningCount rand
  let r := botResolveAction "Bot 3" s.bot3 action s.deck s.runningCount
  let s1 :=
    { s with
      bot3 := r.player,
      deck := r.deck,
      runningCount := r.runningCount,
      chatLog := s.chatLog ++ [ChatEntry.mk 7 "Bot 3" r.msg],
      message := "Dealer\x27s Turn...",
      events := s.events ++ [Ev.bot3Action] }
  revealDealerHand s1

/-- BlackjackTable `handleSplit`. -/
def handleSplit (s : GameState) : GameState :=
  if s.humanHand.length = 2 ∧ canSplit s.humanHand then
    if s.humanChips < s.humanBet then
      { s with analysisMessage := "Not enough chips to split." }
    else
      let res := createSplitHands s.humanHand s.humanBet
      { s with
        humanChips := s.humanChips - s.humanBet,
        splitHands := some (⟨res.1.1, res.2, false⟩, ⟨res.1.2, res.2, false⟩),
        humanHand := [],
        activeSplitIndex := 0,
        chatLog := s.chatLog ++ [ChatEntry.mk 5 "You" "Hand split into two hands."] }
  else
    { s with analysisMessage := "Cannot split: Your two cards do not have the same value." }

/-- Read split hand `i` of the pair (index 0 or 1). -/
def getSplit (sh : SplitHand × SplitHand) (i : Nat) : SplitHand :=
  if i = 0 then sh.1 else sh.2

/-- Write split hand `i` of the pair (index 0 or 1). -/
def setSplit (sh : SplitHand × SplitHand) (i : Nat) (h : SplitHand) : SplitHand × SplitHand :=
  if i = 0 then (h, sh.2) else (sh.1, h)

/-- BlackjackTable `handleSplitMove`. -/
def handleSplitMove (s : GameState) (action : String) (rand : ℚ) : GameState :=
  match s.splitHands with
  | none => s
  | some sh =>
    let i := s.activeSplitIndex
    let cur := getSplit sh i
    let currentBet := cur.bet
    let moveAnalysis := analyzeMove (calculateTotal cur.hand) (dealerUpcardOf s) action 0 0
    let ord := if i = 0 then 5 else 6
    let s1 :=
      { s with chatLog := s.chatLog ++
          [ChatEntry.mk ord "You (split)" ("Hand " ++ toString (i + 1) ++ ": " ++ action)] }
    if action = "hit" then
      let drawn := s1.deck.head?
      let cur1 :=
        match drawn with
        | some c => { cur with hand := cur.hand ++ [c] }
        | none => cur
      let s2 :=
        match drawn with
        | some c =>
          { s1 with deck := s1.deck.tail, runningCount := s1.runningCount + cardCountValue c }
        | none => s1
      if 21 < calculateTotal cur1.hand then
        let s3 :=
          { s2 with
            splitHands := some (setSplit sh i { cur1 with completed := true }),
            chatLog := s2.chatLog ++
              [ChatEntry.mk ord "You (split)" ("Hand " ++ toString (i + 1) ++ ": Bust")] }
        if i < 1 then { s3 with activeSplitIndex := i + 1, analysisMessage := "" }
        else handleBotsTurnAfterHuman s3 rand
      else { s2 with splitHands := some (setSplit sh i cur1) }
    else if action = "stand" then
      let s2 :=
        { s1 with
          splitHands := some (setSplit sh i { cur with completed := true }),
          chatLog := s1.chatLog ++
            [ChatEntry.mk ord "You (split)" ("Hand " ++ toString (i + 1) ++ ": Stand")] }
      if i < 1 then { s2 with activeSplitIndex := i + 1, analysisMessage := "" }
      else handleBotsTurnAfterHuman s2 rand
    else if action = "double" then
      if cur.hand.length = 1 then
        if s1.humanChips < currentBet then
          { s1 with analysisMessage := "Not enough chips to double down on this hand." }
        else
          let s2 := { s1 with humanChips := s1.humanChips - currentBet }
          let cur1 := { cur with bet := cur.bet * 2 }
          let drawn := s2.deck.head?
          let cur2 :=
            match drawn with
            | some c => { cur1 with hand := cur1.hand ++ [c] }
            | none => cur1
          let s3 :=
            match drawn with
            | some c =>
              { s2 with deck := s2.deck.tail, runningCount := s2.runningCount + cardCountValue c }
            | none => s2
          let s4 :=
            { s3 with
              splitHands := some (setSplit sh i { cur2 with completed := true }),
              chatLog := s3.chatLog ++
                [ChatEntry.mk ord "You (split)" ("Hand " ++ toString (i + 1) ++ ": Doubled down")] }
          if i < 1 then { s4 with activeSplitIndex := i + 1, analysisMessage := "" }
          else handleBotsTurnAfterHuman s4 rand
      else
        { s1 with analysisMessage := "Doubling down is only allowed on your initial card in a split hand." }
    else { s1 with splitHands := some sh }

/-- BlackjackTable `handlePlayerMove`. -/
def handlePlayerMove (s : GameState) (action : String) (rand : ℚ) : GameState :=
  if action = "split" then handleSplit s
  else if s.splitHands.isSome then handleSplitMove s action rand
  else
    let playerTotal := calculateTotal s.humanHand
    let moveAnalysis := analyzeMove playerTotal (dealerUpcardOf s) action 0 0
    let s1 :=
      { s with
        chatLog := s.chatLog ++
          [ChatEntry.mk 5 "You"
            (if action = "hit" then "You hit."
             else if action = "stand" then "You stood."
             else "You doubled down.")],
        analysisMessage := moveAnalysis }
    if action = "hit" then
      match s1.deck with
      | [] => s1
      | c :: rest =>
        let s2 :=
          { s1 with
            humanHand := s1.humanHand ++ [c],
            runningCount := s1.runningCount + cardCountValue c,
            deck := rest }
        if 21 < calculateTotal s2.humanHand then
          revealDealerHand
            { s2 with message := "❌ You Bust!", analysisMessage := moveAnalysis ++ " You Bust!" }
        else s2
    else if action = "stand" then
      handleBotsTurnAfterHuman { s1 with message := "Dealer\x27s Turn..." } rand
    else if action = "double" then
      if s1.humanHand.length = 2 then
        if s1.humanChips < s1.humanBet then
          { s1 with analysisMessage := "Not enough chips to double down." }
        else
          let s2 :=
            { s1 with humanChips := s1.humanChips - s1.humanBet, humanBet := s1.humanBet * 2 }
          let s3 :=
            match s2.deck with
            | [] => s2
            | c :: rest =>
              { s2 with
                humanHand := s2.humanHand ++ [c],
                runningCount := s2.runningCount + cardCountValue c,
                deck := rest }
          handleBotsTurnAfterHuman s3 rand
      else { s1 with analysisMessage := "Doubling down is only allowed on your initial 2 cards." }
    else s1

/-- BlackjackTable `nextHand`: after 5 or more resolved hands produce the
cumulative summary and reset hand history, hand count and running count;
otherwise return to the betting phase. -/
def nextHand (s : GameState) : GameState :=
  if 5 ≤ s.handCount then
    { s with
      sessionAnalysis :=
        "Cumulative Results: Wins: " ++ toString s.humanWins ++
        ", Losses: " ++ toString s.humanLosses ++
        ", Pushes: " ++ toString s.humanPushes,
      handHistory := [],
      handCount := 0,
      runningCount := 0 }
  else { s with bettingPhase := true }

/-- Value of a card when every ace is counted low: ace 1, otherwise the
`calculateTotal` value.  Used only to state the ace-flex specification. -/
def cardLowValue (card : Card) : Nat :=
  if card.rank = Rank.A then 1 else rankValue card.rank

/-- Total of a hand for one choice vector: aces whose choice is `true`
count 11, every other card counts its `cardLowValue`.  Used only to state
the ace-flex specification. -/
def totalWith : List Card → List Bool → Nat
  | [], _ => 0
  | _ :: _, [] => 0
  | card :: rest, choice :: choices =>
    (if card.rank = Rank.A ∧ choice then 11 else cardLowValue card) + totalWith rest choices

/-- A total is achievable for a hand when some per-card choice of counting
each ace as 1 or 11 produces it. -/
def achievable (hand : List Card) (t : Nat) : Prop :=
  ∃ choice : List Bool, choice.length = hand.length ∧ totalWith hand choice = t

/-- The minimum achievable total of a hand (every ace counted as 1). -/
def minTotal (hand : List Card) : Nat :=
  handBase hand - 10 * aceCount hand

/-! Helper lemmas (shared; none of these is a claim theorem). -/

/-- A left fold that only adds per-element values is the starting value plus
the sum of the mapped list. -/
lemma foldl_add_eq_sum (f : Card → Int) (l : List Card) (a : Int) :
    l.foldl (fun acc c => acc + f c) a = a + (l.map f).sum := by
  induction l generalizing a with
  | nil => simp
  | cons c t ih => simp [List.foldl_cons, ih]; ring

/-! Claim C9: computeOutcome. -/

/-- C9: for all integer totals, `computeOutcome` returns exactly one of
Bust, Win, Lose, Push by the rule: player > 21 gives Bust; else dealer > 21
gives Win; else dealer > player gives Lose; dealer < player gives Win;
equal totals give Push; and the four quoted concrete evaluations hold. -/
theorem computeOutcome_spec :
    (∀ playerTotal dealerTotal : Int,
      computeOutcome playerTotal dealerTotal ∈ (["Bust", "Win", "Lose", "Push"] : List String) ∧
      (21 < playerTotal → computeOutcome playerTotal dealerTotal = "Bust") ∧
      (playerTotal ≤ 21 → 21 < dealerTotal → computeOutcome playerTotal dealerTotal = "Win") ∧
      (playerTotal ≤ 21 → dealerTotal ≤ 21 → playerTotal < dealerTotal →
        computeOutcome playerTotal dealerTotal = "Lose") ∧
      (playerTotal ≤ 21 → dealerTotal ≤ 21 → dealerTotal < playerTotal →
        computeOutcome playerTotal dealerTotal = "Win") ∧
      (playerTotal ≤ 21 → dealerTotal ≤ 21 → playerTotal = dealerTotal →
        computeOutcome playerTotal dealerTotal = "Push")) ∧
    computeOutcome 22 20 = "Bust" ∧ computeOutcome 20 22 = "Win" ∧
    computeOutcome 18 18 = "Push" ∧ computeOutcome 19 18 = "Win" := by
  refine ⟨fun p d => ⟨?_, ?_, ?_, ?_, ?_, ?_⟩, by decide, by decide, by decide, by decide⟩ <;>
    unfold computeOutcome <;> split_ifs <;> intros <;> first | rfl | omega | decide

/-- Witness for C9 at the concrete input (22, 20). -/
theorem computeOutcome_spec_witness :
    (21 : Int) < 22 ∧ computeOutcome 22 20 = "Bust" :=
  ⟨by decide, ((computeOutcome_spec.1 22 20).2.1 (by decide))⟩

/-! Claim C10: updateRunningCount. -/

/-- C10: `updateRunningCount` adds the sum of the Hi-Lo weights of the cards
to the starting count; it is invariant under permutations of the card list,
and applying it to successive sublists composes additively. -/
theorem updateRunningCount_spec :
    (∀ (cards : List Card) (rc : Int),
      updateRunningCount cards rc = rc + (cards.map fun c => hiLoValues c.rank).sum) ∧
    (∀ (cards1 cards2 : List Card) (rc : Int), cards1.Perm cards2 →
      updateRunningCount cards1 rc = updateRunningCount cards2 rc) ∧
    (∀ (cards1 cards2 : List Card) (rc : Int),
      updateRunningCount (cards1 ++ cards2) rc =
        updateRunningCount cards2 (updateRunningCount cards1 rc)) := by
  have hsum : ∀ (cards : List Card) (rc : Int),
      updateRunningCount cards rc = rc + (cards.map fun c => hiLoValues c.rank).sum := by
    intro cards rc
    unfold updateRunningCount
    rw [foldl_add_eq_sum]
    ring
  refine ⟨hsum, ?_, ?_⟩
  · intro cards1 cards2 rc hperm
    rw [hsum, hsum, ((hperm.map fun c => hiLoValues c.rank).sum_eq)]
  · intro cards1 cards2 rc
    rw [hsum, hsum, hsum, List.map_append, List.sum_append]
    ring

/-- Witness for C10: permutation invariance at a concrete pair of hands. -/
theorem updateRunningCount_spec_witness :
    ([Card.mk "♠️" Rank.r2, Card.mk "♥️" Rank.K] : List Card).Perm
      [Card.mk "♥️" Rank.K, Card.mk "♠️" Rank.r2] ∧
    updateRunningCount [Card.mk "♠️" Rank.r2, Card.mk "♥️" Rank.K] 5 =
      updateRunningCount [Card.mk "♥️" Rank.K, Card.mk "♠️" Rank.r2] 5 :=
  ⟨by decide, updateRunningCount_spec.2.1 _ _ 5 (by decide)⟩

/-! Claim C3: getOptimalMove. -/

/-- A successful association-list lookup returns one of the stored values. -/
lemma lookup_mem_snd {α β : Type} [BEq α] (l : List (α × β)) (k : α) (v : β)
    (h : l.lookup k = some v) : v ∈ l.map Prod.snd := by
  induction l with
  | nil => simp [List.lookup] at h
  | cons p t ih =>
    obtain ⟨a, b⟩ := p
    rw [List.lookup] at h
    split at h
    · simp_all
    · simp only [List.map_cons, List.mem_cons]
      exact Or.inr (ih h)

/-- Every value stored in the basic-strategy table is one of hit, stand,
double, double_or_hit, surrender_or_hit. -/
lemma basicStrategy_values {k v : String} (h : basicStrategy.lookup k = some v) :
    v ∈ (["hit", "stand", "double", "double_or_hit", "surrender_or_hit"] : List String) := by
  have hm := lookup_mem_snd _ _ _ h
  have hall : ∀ x ∈ basicStrategy.map Prod.snd,
      x ∈ (["hit", "stand", "double", "double_or_hit", "surrender_or_hit"] : List String) := by
    decide
  exact hall v hm

/-- C3 amended: `getOptimalMove` always returns one of the five values hit,
stand, double, double_or_hit, surrender_or_hit (the table also stores the
entry "double", so the four-value range of the original claim is too small). -/
theorem getOptimalMove_range (playerTotal : Int) (dealerUpcard : String)
    (runningCount decksRemaining : Int) :
    getOptimalMove playerTotal dealerUpcard runningCount decksRemaining ∈
      (["hit", "stand", "double", "double_or_hit", "surrender_or_hit"] : List String) := by
  unfold getOptimalMove
  dsimp only
  have hbase :
      (match basicStrategy.lookup (toString playerTotal ++ "_" ++ dealerUpcard) with
        | some m => m
        | none =>
          match basicStrategy.lookup (toString playerTotal ++ "_any") with
          | some m => m
          | none => "hit") ∈
        (["hit", "stand", "double", "double_or_hit", "surrender_or_hit"] : List String) := by
    split
    · next m heq => exact basicStrategy_values heq
    · split
      · next m heq => exact basicStrategy_values heq
      · decide
  split_ifs <;> first | decide | exact hbase

/-- C3 counterexample: with player total 11 against upcard "7" and a neutral
count, the lookup falls back to the "11_any" entry, which is "double" — a
value outside the four-value range stated by the claim. -/
theorem getOptimalMove_returns_double :
    getOptimalMove 11 "7" 0 6 = "double" ∧
    getOptimalMove 11 "7" 0 6 ∉
      (["hit", "stand", "double_or_hit", "surrender_or_hit"] : List String) := by
  constructor
  · rfl
  · decide

/-! Claim C8: generateDeck. -/

/-- Each suit/rank combination occurs exactly 6 times in the unshuffled
6-deck sequence. -/
lemma generateDeckBase_count :
    ∀ su ∈ suits, ∀ r ∈ ranks, List.count (Card.mk su r) (generateDeckBase 6) = 6 := by
  decide

/-- C8: every shuffle output, being a permutation of the 6-deck base
sequence, has exactly 312 cards with each of the 52 suit/rank combinations
appearing exactly 6 times. -/
theorem generateDeck_spec (deck : List Card) (h : deck.Perm (generateDeckBase 6)) :
    deck.length = 312 ∧
    ∀ su ∈ suits, ∀ r ∈ ranks, List.count (Card.mk su r) deck = 6 := by
  constructor
  · rw [h.length_eq]; rfl
  · intro su hsu r hr
    rw [h.count_eq]
    exact generateDeckBase_count su hsu r hr

/-- Witness for C8 at the identity permutation of the base sequence. -/
theorem generateDeck_spec_witness :
    (generateDeckBase 6).Perm (generateDeckBase 6) ∧
    (generateDeckBase 6).length = 312 ∧
    List.count (Card.mk "♠️" Rank.A) (generateDeckBase 6) = 6 :=
  ⟨List.Perm.refl _, (generateDeck_spec _ (List.Perm.refl _)).1,
    (generateDeck_spec _ (List.Perm.refl _)).2 _ (by decide) _ (by decide)⟩

/-! Claim C7: calculateTotal. -/

/-- Aces contribute 11 each to the base total. -/
lemma ace_le_handBase (hand : List Card) : 11 * aceCount hand ≤ handBase hand := by
  induction hand with
  | nil => simp [aceCount, handBase]
  | cons c t ih =>
    by_cases h : c.rank = Rank.A
    · simp only [aceCount, handBase, h, if_pos, rankValue]
      omega
    · simp only [aceCount, handBase, if_neg h]
      omega

/-- The minimum total splits off the head card at its low value. -/
lemma minTotal_cons (c : Card) (t : List Card) :
    minTotal (c :: t) = cardLowValue c + minTotal t := by
  have ht := ace_le_handBase t
  by_cases h : c.rank = Rank.A <;>
    simp only [minTotal, handBase, aceCount, cardLowValue, h, if_pos, if_neg,
      not_false_iff, rankValue] <;> omega

/-- Every choice-vector total is the minimum total plus 10 for each ace
counted high. -/
lemma totalWith_eq (hand : List Card) :
    ∀ choice : List Bool, choice.length = hand.length →
      ∃ k ≤ aceCount hand, totalWith hand choice = minTotal hand + 10 * k := by
  induction hand with
  | nil =>
    intro choice h
    exact ⟨0, le_refl 0, by simp [totalWith, minTotal, handBase, aceCount]⟩
  | cons c t ih =>
    intro choice hlen
    cases choice with
    | nil => simp at hlen
    | cons b bs =>
      obtain ⟨k, hk, htw⟩ := ih bs (by simpa using hlen)
      by_cases hc : c.rank = Rank.A ∧ b
      · refine ⟨k + 1, ?_, ?_⟩
        · have : aceCount (c :: t) = 1 + aceCount t := by simp [aceCount, hc.1]
          omega
        · rw [totalWith, if_pos hc, htw, minTotal_cons]
          have : cardLowValue c = 1 := by simp [cardLowValue, hc.1]
          omega
      · refine ⟨k, ?_, ?_⟩
        · have : aceCount t ≤ aceCount (c :: t) := by
            simp only [aceCount]
            omega
          omega
        · rw [totalWith, if_neg hc, htw, minTotal_cons]
          omega

/-- Every ace-high count up to the number of aces is realized by some
choice vector. -/
lemma exists_choice (hand : List Card) :
    ∀ k ≤ aceCount hand, ∃ choice : List Bool,
      choice.length = hand.length ∧ totalWith hand choice = minTotal hand + 10 * k := by
  induction hand with
  | nil =>
    intro k hk
    have hk0 : k = 0 := by simpa [aceCount] using hk
    subst hk0
    exact ⟨[], rfl, by simp [totalWith, minTotal, handBase, aceCount]⟩
  | cons c t ih =>
    intro k hk
    by_cases hc : c.rank = Rank.A
    · cases k with
      | zero =>
        obtain ⟨ch, hl, htw⟩ := ih 0 (Nat.zero_le _)
        refine ⟨false :: ch, by simp [hl], ?_⟩
        rw [totalWith, if_neg (by simp), htw, minTotal_cons]
        omega
      | succ k0 =>
        have hk0 : k0 ≤ aceCount t := by
          simp only [aceCount, hc, if_pos] at hk
          omega
        obtain ⟨ch, hl, htw⟩ := ih k0 hk0
        refine ⟨true :: ch, by simp [hl], ?_⟩
        rw [totalWith, if_pos ⟨hc, rfl⟩, htw, minTotal_cons]
        have hlow : cardLowValue c = 1 := by simp [cardLowValue, hc]
        omega
    · have hk' : k ≤ aceCount t := by
        simp only [aceCount, hc, if_neg, not_false_iff] at hk
        omega
      obtain ⟨ch, hl, htw⟩ := ih k hk'
      refine ⟨false :: ch, by simp [hl], ?_⟩
      rw [totalWith, if_neg (by simp [hc]), htw, minTotal_cons]
      omega

/-- Behaviour of the ace-reduction loop: writing `m` for
`total - 10 * aces`, the loop either stops at a value `m + 10 * k ≤ 21`
that dominates every such value, or, when even `m` exceeds 21, at `m`. -/
lemma reduceAces_spec :
    ∀ aces total, 10 * aces ≤ total →
      ((total - 10 * aces ≤ 21 →
         reduceAces total aces ≤ 21 ∧
         (∃ k ≤ aces, reduceAces total aces = (total - 10 * aces) + 10 * k) ∧
         ∀ k ≤ aces, (total - 10 * aces) + 10 * k ≤ 21 →
           (total - 10 * aces) + 10 * k ≤ reduceAces total aces) ∧
       (21 < total - 10 * aces → reduceAces total aces = total - 10 * aces)) := by
  intro aces
  induction aces with
  | zero =>
    intro total h
    refine ⟨fun h21 => ⟨by simpa [reduceAces] using h21, ⟨0, le_refl _, by simp [reduceAces]⟩, ?_⟩,
      fun h21 => by simp [reduceAces]⟩
    intro k hk hkle
    have : k = 0 := Nat.le_zero.mp hk
    subst this
    simp [reduceAces]
  | succ a ihA =>
    intro total h
    by_cases h21t : 21 < total
    · have hstep : reduceAces total (a + 1) = reduceAces (total - 10) a := by
        rw [reduceAces, if_pos h21t]
      have h' : 10 * a ≤ total - 10 := by omega
      have ihh := ihA (total - 10) h'
      have hmeq : total - 10 - 10 * a = total - 10 * (a + 1) := by omega
      rw [hmeq, ← hstep] at ihh
      constructor
      · intro hm21
        obtain ⟨hle, ⟨k, hk, hkeq⟩, hmax⟩ := ihh.1 hm21
        refine ⟨hle, ⟨k, by omega, hkeq⟩, ?_⟩
        intro k' hk' hk'le
        rcases Nat.lt_or_ge k' (a + 1) with hlt | hge
        · exact hmax k' (by omega) hk'le
        · omega
      · intro hm21
        exact ihh.2 hm21
    · have hstep : reduceAces total (a + 1) = total := by
        rw [reduceAces, if_neg h21t]
      constructor
      · intro hm21
        refine ⟨by omega, ⟨a + 1, le_refl _, by omega⟩, ?_⟩
        intro k hk hkle
        omega
      · intro hm21
        omega

/-- C7: `calculateTotal` always returns an achievable total (each ace
counted as 1 or 11); whenever some achievable total is at most 21 (which
happens exactly when the all-aces-low minimum is), the result is the
largest achievable total not exceeding 21, and otherwise the result is the
minimum achievable total, which exceeds 21. -/
theorem calculateTotal_spec (hand : List Card) :
    achievable hand (calculateTotal hand) ∧
    (minTotal hand ≤ 21 →
      calculateTotal hand ≤ 21 ∧
      ∀ t, achievable hand t → t ≤ 21 → t ≤ calculateTotal hand) ∧
    (21 < minTotal hand →
      calculateTotal hand = minTotal hand ∧
      ∀ t, achievable hand t → minTotal hand ≤ t) := by
  have hb : 10 * aceCount hand ≤ handBase hand :=
    le_trans (by omega) (ace_le_handBase hand)
  have hra := reduceAces_spec (aceCount hand) (handBase hand) hb
  have hmeq : handBase hand - 10 * aceCount hand = minTotal hand := rfl
  rw [hmeq] at hra
  have hct : calculateTotal hand = reduceAces (handBase hand) (aceCount hand) := rfl
  refine ⟨?_, ?_, ?_⟩
  · by_cases hm : minTotal hand ≤ 21
    · obtain ⟨_, ⟨k, hk, hkeq⟩, _⟩ := hra.1 hm
      obtain ⟨ch, hl, htw⟩ := exists_choice hand k hk
      exact ⟨ch, hl, by rw [htw, hct, hkeq]⟩
    · have hre := hra.2 (by omega)
      obtain ⟨ch, hl, htw⟩ := exists_choice hand 0 (Nat.zero_le _)
      exact ⟨ch, hl, by rw [htw, hct, hre]; omega⟩
  · intro hm
    obtain ⟨hle, _, hmax⟩ := hra.1 hm
    refine ⟨by rw [hct]; exact hle, ?_⟩
    rintro t ⟨ch, hl, htw⟩ ht21
    obtain ⟨k, hk, hkeq⟩ := totalWith_eq hand ch hl
    rw [htw] at hkeq
    rw [hct, hkeq]
    exact hmax k hk (by omega)
  · intro hm
    refine ⟨by rw [hct]; exact hra.2 hm, ?_⟩
    rintro t ⟨ch, hl, htw⟩
    obtain ⟨k, hk, hkeq⟩ := totalWith_eq hand ch hl
    omega

/-- Witness for C7 at the concrete hand ace of spades plus king of spades. -/
theorem calculateTotal_spec_witness :
    minTotal [Card.mk "♠️" Rank.A, Card.mk "♠️" Rank.K] ≤ 21 ∧
    calculateTotal [Card.mk "♠️" Rank.A, Card.mk "♠️" Rank.K] ≤ 21 :=
  ⟨by decide, ((calculateTotal_spec [Card.mk "♠️" Rank.A, Card.mk "♠️" Rank.K]).2.1 (by decide)).1⟩

/-! Concrete states used to instantiate the orchestrator theorems. -/

/-- A concrete mid-hand state: dealer shows 10+7, the human holds Q+9 for a
bet of 50, and Bot 3 holds a two-card 10 (so its randomized branch is never
consulted). -/
def testState : GameState where
  deck := []
  dealerHand := [Card.mk "♠️" Rank.r10, Card.mk "♥️" Rank.r7]
  dealerRevealed := false
  bot1 := ⟨[Card.mk "♣️" Rank.r9, Card.mk "♦️" Rank.r9], 950, 50⟩
  bot2 := ⟨[Card.mk "♣️" Rank.r8, Card.mk "♦️" Rank.r8], 950, 50⟩
  bot3 := ⟨[Card.mk "♣️" Rank.r5, Card.mk "♦️" Rank.r5], 950, 50⟩
  humanHand := [Card.mk "♠️" Rank.Q, Card.mk "♥️" Rank.r9]
  humanChips := 950
  humanBet := 50
  splitHands := none
  activeSplitIndex := 0
  runningCount := 0
  handCount := 0
  humanWins := 0
  humanLosses := 0
  humanPushes := 0
  message := ""
  analysisMessage := ""
  sessionAnalysis := ""
  handHistory := []
  chatLog := []
  bettingPhase := false
  gameOver := false
  events := []

/-! Claim C4: nextHand. -/

/-- C4 amended: with 5 or more resolved hands, `nextHand` produces the
cumulative summary and resets hand count, running count and hand history,
but leaves the wins, losses and pushes counters (and the phase) unchanged;
with fewer than 5 resolved hands it returns to the betting phase with all
counters unchanged. -/
theorem nextHand_spec (s : GameState) :
    (5 ≤ s.handCount →
      (nextHand s).handCount = 0 ∧
      (nextHand s).runningCount = 0 ∧
      (nextHand s).handHistory = [] ∧
      (nextHand s).sessionAnalysis =
        "Cumulative Results: Wins: " ++ toString s.humanWins ++
        ", Losses: " ++ toString s.humanLosses ++
        ", Pushes: " ++ toString s.humanPushes ∧
      (nextHand s).humanWins = s.humanWins ∧
      (nextHand s).humanLosses = s.humanLosses ∧
      (nextHand s).humanPushes = s.humanPushes ∧
      (nextHand s).bettingPhase = s.bettingPhase) ∧
    (s.handCount < 5 →
      (nextHand s).bettingPhase = true ∧
      (nextHand s).handCount = s.handCount ∧
      (nextHand s).runningCount = s.runningCount ∧
      (nextHand s).humanWins = s.humanWins ∧
      (nextHand s).humanLosses = s.humanLosses ∧
      (nextHand s).humanPushes = s.humanPushes) := by
  constructor
  · intro h
    unfold nextHand
    rw [if_pos h]
    exact ⟨rfl, rfl, rfl, rfl, rfl, rfl, rfl, rfl⟩
  · intro h
    unfold nextHand
    rw [if_neg (by omega : ¬ 5 ≤ s.handCount)]
    exact ⟨rfl, rfl, rfl, rfl, rfl, rfl⟩

/-- Witness for C4 at a concrete state with 5 resolved hands. -/
theorem nextHand_spec_witness :
    5 ≤ ({ testState with handCount := 5 } : GameState).handCount ∧
    (nextHand { testState with handCount := 5 }).handCount = 0 :=
  ⟨by decide, ((nextHand_spec { testState with handCount := 5 }).1 (by decide)).1⟩

/-- C4 counterexample: after the fifth hand, `nextHand` leaves 3 recorded
wins in place — the wins/losses/pushes counters are not reset. -/
theorem nextHand_wins_not_reset :
    5 ≤ ({ testState with handCount := 5, humanWins := 3 } : GameState).handCount ∧
    (nextHand { testState with handCount := 5, humanWins := 3 }).humanWins = 3 ∧
    (nextHand { testState with handCount := 5, humanWins := 3 }).humanWins ≠ 0 := by
  exact ⟨by decide, rfl, by decide⟩

/-! Claim C6: double with insufficient chips. -/

/-- C6 amended: a bot that chooses "double" while holding fewer chips than
its bet is downgraded to "stand" with the distinct log message and no other
state change; the human's "double" with insufficient chips is instead
refused — the move chat entry is appended and the analysis message is set
to the refusal text, but nothing is downgraded to a stand and no dealer
resolution is triggered. -/
theorem insufficient_double (name : String) (p : PlayerRec) (deck : List Card)
    (rc : Int) (s : GameState) (rand : ℚ) :
    (p.chips < p.bet →
      botResolveAction name p "double" deck rc =
        ⟨p, deck, rc, "stand", name ++ " stood (insufficient chips to double down)."⟩) ∧
    (s.splitHands = none → s.humanHand.length = 2 → s.humanChips < s.humanBet →
      handlePlayerMove s "double" rand =
        { s with
          chatLog := s.chatLog ++ [ChatEntry.mk 5 "You" "You doubled down."],
          analysisMessage := "Not enough chips to double down." }) := by
  constructor
  · intro h
    unfold botResolveAction
    rw [if_pos rfl, if_neg (not_le.mpr h)]
  · intro hsp hlen hch
    unfold handlePlayerMove
    rw [if_neg (by decide : ¬ ("double" = "split")), hsp]
    rw [if_neg (by decide : ¬ ((none : Option (SplitHand × SplitHand)).isSome = true))]
    dsimp only
    rw [if_neg (by decide : ¬ ("double" = "hit")), if_neg (by decide : ¬ ("double" = "stand")),
      if_pos rfl, if_pos hlen, if_pos hch]
    rfl

/-- Witness for C6: a bot with 0 chips and a 50 bet is downgraded, and a
human with 20 chips and a 50 bet is refused. -/
theorem insufficient_double_witness :
    (PlayerRec.mk [] 0 50).chips < (PlayerRec.mk [] 0 50).bet ∧
    botResolveAction "Bot 1" (PlayerRec.mk [] 0 50) "double" [] 0 =
      ⟨PlayerRec.mk [] 0 50, [], 0, "stand", "Bot 1 stood (insufficient chips to double down)."⟩ ∧
    handlePlayerMove { testState with humanChips := 20 } "double" 0 =
      { ({ testState with humanChips := 20 } : GameState) with
        chatLog := ({ testState with humanChips := 20 } : GameState).chatLog ++
          [ChatEntry.mk 5 "You" "You doubled down."],
        analysisMessage := "Not enough chips to double down." } :=
  ⟨by decide,
    (insufficient_double "Bot 1" (PlayerRec.mk [] 0 50) [] 0 testState 0).1 (by decide),
    (insufficient_double "Bot 1" (PlayerRec.mk [] 0 50) [] 0
      { testState with humanChips := 20 } 0).2 rfl rfl (by decide)⟩

/-- C6 counterexample: the human's "double" with 0 chips against a 50 bet
does not behave like a stand — a stand at the same state resolves the hand
(`gameOver` becomes true), while the refused double leaves the hand open
with only the refusal message set. -/
theorem human_double_not_stand :
    (handlePlayerMove { testState with humanChips := 0 } "double" 0).gameOver = false ∧
    (handlePlayerMove { testState with humanChips := 0 } "double" 0).analysisMessage =
      "Not enough chips to double down." ∧
    (handlePlayerMove { testState with humanChips := 0 } "stand" 0).gameOver = true := by
  exact ⟨rfl, rfl, rfl⟩

/-! Claim C5: resolution order. -/

/-- Dealer resolution appends exactly one resolution event. -/
lemma revealDealerHand_events (s : GameState) :
    (revealDealerHand s).events = s.events ++ [Ev.dealerResolution] := rfl

/-- The post-human turn appends the Bot 3 action and then the dealer
resolution. -/
lemma handleBotsTurnAfterHuman_events (s : GameState) (rand : ℚ) :
    (handleBotsTurnAfterHuman s rand).events =
      s.events ++ [Ev.bot3Action, Ev.dealerResolution] := by
  unfold handleBotsTurnAfterHuman
  rw [revealDealerHand_events]
  show s.events ++ [Ev.bot3Action] ++ [Ev.dealerResolution] = _
  simp

/-- C5 amended: on the stand path, the successful double path, and the
final-split-hand stand path, Bot 3 acts exactly once and the dealer then
resolves; but on the path where the human busts on a hit, the dealer
resolution runs immediately and Bot 3 does not act. -/
theorem resolution_order (s : GameState) (rand : ℚ) :
    (s.splitHands = none →
      (handlePlayerMove s "stand" rand).events =
        s.events ++ [Ev.bot3Action, Ev.dealerResolution]) ∧
    (s.splitHands = none → s.humanHand.length = 2 → ¬ s.humanChips < s.humanBet →
      (handlePlayerMove s "double" rand).events =
        s.events ++ [Ev.bot3Action, Ev.dealerResolution]) ∧
    (∀ c rest, s.splitHands = none → s.deck = c :: rest →
      21 < calculateTotal (s.humanHand ++ [c]) →
      (handlePlayerMove s "hit" rand).events = s.events ++ [Ev.dealerResolution]) ∧
    (∀ sh, s.splitHands = some sh → s.activeSplitIndex = 1 →
      (handlePlayerMove s "stand" rand).events =
        s.events ++ [Ev.bot3Action, Ev.dealerResolution]) := by
  refine ⟨?_, ?_, ?_, ?_⟩
  · intro hsp
    unfold handlePlayerMove
    rw [if_neg (by decide : ¬ ("stand" = "split")), hsp]
    rw [if_neg (by decide : ¬ ((none : Option (SplitHand × SplitHand)).isSome = true))]
    dsimp only
    rw [if_neg (by decide : ¬ ("stand" = "hit")), if_pos rfl]
    rw [handleBotsTurnAfterHuman_events]
  · intro hsp hlen hch
    unfold handlePlayerMove
    rw [if_neg (by decide : ¬ ("double" = "split")), hsp]
    rw [if_neg (by decide : ¬ ((none : Option (SplitHand × SplitHand)).isSome = true))]
    dsimp only
    rw [if_neg (by decide : ¬ ("double" = "hit")), if_neg (by decide : ¬ ("double" = "stand")),
      if_pos rfl, if_pos hlen, if_neg hch]
    rcases hdk : s.deck with _ | ⟨c, rest⟩ <;>
      · dsimp only
        rw [handleBotsTurnAfterHuman_events]
  · intro c rest hsp hdk hbust
    unfold handlePlayerMove
    rw [if_neg (by decide : ¬ ("hit" = "split")), hsp]
    rw [if_neg (by decide : ¬ ((none : Option (SplitHand × SplitHand)).isSome = true))]
    dsimp only
    rw [if_pos rfl, hdk]
    dsimp only
    rw [if_pos hbust, revealDealerHand_events]
  · intro sh hsp hidx
    unfold handlePlayerMove
    rw [if_neg (by decide : ¬ ("stand" = "split")), hsp]
    rw [if_pos (Option.isSome_some : (some sh).isSome = true)]
    unfold handleSplitMove
    rw [hsp]
    dsimp only
    rw [if_neg (by decide : ¬ ("stand" = "hit")), if_pos rfl, hidx]
    rw [if_neg (by decide : ¬ ((1 : Nat) < 1))]
    rw [handleBotsTurnAfterHuman_events]

/-- Witness for C5 on the stand path at the concrete test state. -/
theorem resolution_order_witness :
    (testState : GameState).splitHands = none ∧
    (handlePlayerMove testState "stand" 0).events =
      testState.events ++ [Ev.bot3Action, Ev.dealerResolution] :=
  ⟨rfl, (resolution_order testState 0).1 rfl⟩

/-- C5 counterexample: the human holds Q+9 and hits a king, busting; the
dealer resolution is entered directly and Bot 3 never acts, so the
Bot-3-then-dealer order claimed for the bust path does not hold. -/
theorem bust_skips_bot3 :
    (handlePlayerMove { testState with deck := [Card.mk "♣️" Rank.K] } "hit" 0).events =
      [Ev.dealerResolution] ∧
    Ev.bot3Action ∉
      (handlePlayerMove { testState with deck := [Card.mk "♣️" Rank.K] } "hit" 0).events := by
  exact ⟨rfl, by decide⟩

/-! Claim C1: payout at dealer resolution. -/

/-- The test state holding a two-card natural 21 (ace + king). -/
def naturalState : GameState :=
  { testState with humanHand := [Card.mk "♠️" Rank.A, Card.mk "♠️" Rank.K] }

/-- The test state holding a three-card 21 (7+7+7) with 0 chips and a
10-chip bet. -/
def sevensState : GameState :=
  { testState with
    humanHand := [Card.mk "♠️" Rank.r7, Card.mk "♥️" Rank.r7, Card.mk "♦️" Rank.r7],
    humanChips := 0,
    humanBet := 10 }

/-- C1 amended: at dealer resolution, a win pays 2.5 times the bet exactly
when the winning total is exactly 21 — regardless of how many cards made it
(the code checks only the total, not the two-card natural condition); every
other win pays 2 times the bet, a push refunds the bet, and a loss or bust
adds nothing. -/
theorem revealDealerHand_payout (s : GameState) :
    ((revealDealerHand s).message = "You win!" ∨
        (revealDealerHand s).message = "Dealer busts, you win!" →
      (revealDealerHand s).humanChips =
        (if calculateTotal s.humanHand = 21 then s.humanChips + s.humanBet * 2.5
         else s.humanChips + s.humanBet * 2)) ∧
    ((revealDealerHand s).message = "Push!" →
      (revealDealerHand s).humanChips = s.humanChips + s.humanBet) ∧
    ((revealDealerHand s).message = "Bust" ∨ (revealDealerHand s).message = "Dealer wins!" →
      (revealDealerHand s).humanChips = s.humanChips) := by
  unfold revealDealerHand
  dsimp only
  refine ⟨?_, ?_, ?_⟩ <;> split_ifs <;> intro h <;> simp_all

/-- Witness for C1: ace plus king against a dealer 17 wins and is paid with
the 2.5x multiplier. -/
theorem revealDealerHand_payout_witness :
    ((revealDealerHand naturalState).message = "You win!" ∨
      (revealDealerHand naturalState).message = "Dealer busts, you win!") ∧
    (revealDealerHand naturalState).humanChips =
      (if calculateTotal naturalState.humanHand = 21 then
        naturalState.humanChips + naturalState.humanBet * 2.5
       else naturalState.humanChips + naturalState.humanBet * 2) :=
  ⟨Or.inl rfl, (revealDealerHand_payout naturalState).1 (Or.inl rfl)⟩

/-- C1 counterexample: a three-card 21 (7+7+7) beating a dealer 17 is paid
25 on a 10-chip bet — the 2.5x blackjack multiplier — although the claim
says a 21 reached with three or more cards pays only the generic 2x
(which would be 20). -/
theorem three_card_21_pays_blackjack :
    sevensState.humanHand.length = 3 ∧
    calculateTotal sevensState.humanHand = 21 ∧
    (revealDealerHand sevensState).message = "You win!" ∧
    (revealDealerHand sevensState).humanChips = 25 ∧
    (25 : ℚ) ≠ sevensState.humanBet * 2 := by
  refine ⟨rfl, rfl, rfl, ?_, ?_⟩
  · have h : (revealDealerHand sevensState).humanChips = (0 : ℚ) + 10 * 2.5 := rfl
    rw [h]
    norm_num
  · show (25 : ℚ) ≠ 10 * 2
    norm_num

/-! Claim C2: post-split resolution. -/

/-- A splittable hand has exactly two cards. -/
lemma canSplit_length {hand : List Card} (h : canSplit hand = true) : hand.length = 2 := by
  cases hand with
  | nil => simp [canSplit] at h
  | cons a t =>
    cases t with
    | nil => simp [canSplit] at h
    | cons b u =>
      cases u with
      | nil => rfl
      | cons c v => simp [canSplit] at h

/-- The test state holding a splittable pair of eights. -/
def splitState : GameState :=
  { testState with humanHand := [Card.mk "♠️" Rank.r8, Card.mk "♥️" Rank.r8] }

/-- C2: splitting empties the human's main hand; dealer resolution of any
state with an empty main hand is decided by player total 0 against the
dealer's final total, paying 2x the main-hand bet when the dealer busts and
refunding it on the (unreachable without an empty shoe) 0-0 push; and the
resolution never reads or writes the split hands — it commutes with any
replacement of the `splitHands` field. -/
theorem split_resolution (s t : GameState) (sh : Option (SplitHand × SplitHand))
    (h1 : canSplit s.humanHand = true) (h2 : ¬ s.humanChips < s.humanBet)
    (h3 : t.humanHand = []) :
    (handleSplit s).humanHand = [] ∧
    (revealDealerHand t).message =
      (if 21 < calculateTotal (dealerLoop t.dealerHand t.deck t.runningCount).hand then
        "Dealer busts, you win!"
       else if 0 < calculateTotal (dealerLoop t.dealerHand t.deck t.runningCount).hand then
        "Dealer wins!"
       else "Push!") ∧
    (revealDealerHand t).humanChips =
      (if 21 < calculateTotal (dealerLoop t.dealerHand t.deck t.runningCount).hand then
        t.humanChips + t.humanBet * 2
       else if 0 < calculateTotal (dealerLoop t.dealerHand t.deck t.runningCount).hand then
        t.humanChips
       else t.humanChips + t.humanBet) ∧
    revealDealerHand { t with splitHands := sh } =
      { revealDealerHand t with splitHands := sh } := by
  refine ⟨?_, ?_, ?_, ?_⟩
  · unfold handleSplit
    rw [if_pos ⟨canSplit_length h1, h1⟩, if_neg h2]
  · unfold revealDealerHand
    dsimp only
    rw [h3]
    have hct : calculateTotal ([] : List Card) = 0 := rfl
    rw [hct]
    split_ifs <;> simp_all
  · unfold revealDealerHand
    dsimp only
    rw [h3]
    have hct : calculateTotal ([] : List Card) = 0 := rfl
    rw [hct]
    split_ifs <;> simp_all
  · rfl

/-- Witness for C2: splitting a concrete pair of eights empties the main
hand. -/
theorem split_resolution_witness :
    canSplit splitState.humanHand = true ∧
    ¬ splitState.humanChips < splitState.humanBet ∧
    ({ splitState with humanHand := ([] : List Card) } : GameState).humanHand = [] ∧
    (handleSplit splitState).humanHand = [] :=
  ⟨by decide, by decide, rfl,
    (split_resolution splitState { splitState with humanHand := [] } none
      (by decide) (by decide) rfl).1⟩

end Blackjack
